import Mathlib

/-!
Verification of the angr emulated-filesystem slice: `state_plugins/plugin.py`
(the `SimStatePlugin` memoized-copy discipline) and
`state_plugins/filesystem.py` (`SimDirectory` and `SimDirectoryConcrete`).

The Python object graph is embedded shallowly: every live object gets a
numeric identifier (`OId`), the heap maps identifiers to node payloads, and
Python dictionaries become association lists with first-occurrence lookup,
update-in-place-or-append assignment and delete.  Path strings are lists of
characters (`PyStr`).  Fallible operations return `Except PyErr`, and Python
exceptions (TypeError from a call with a missing argument, NameError from an
unbound global, SimMergeError, ...) are `PyErr` values.  Recursive methods and
while-loops take an explicit fuel argument; exhausting fuel yields the
model-internal marker `PyErr.stuck` (or `none` for the memoized copy, whose
divergence is exactly what one theorem establishes), never a Python error.
-/

/-- Python object identity: the value of `id(obj)`. -/
abbrev OId := Nat

/-- Python strings (paths, dictionary keys) as lists of characters. -/
abbrev PyStr := List Char

/-- The reserved self entry "." of every directory. -/
def dotP : PyStr := ['.']

/-- The reserved parent entry ".." of every directory. -/
def ddotP : PyStr := ['.', '.']

/-- First-occurrence association-list lookup, the reading half of a Python
dictionary access (every dictionary the code builds has unique keys). -/
def assocGet {κ α : Type} [DecidableEq κ] : List (κ × α) → κ → Option α
  | [], _ => none
  | (j, v) :: rest, k => if j = k then some v else assocGet rest k

/-- Python dictionary assignment `d[k] = v`: replace the first binding of `k`
if present, otherwise append a new binding. -/
def assocSet {κ α : Type} [DecidableEq κ] : List (κ × α) → κ → α → List (κ × α)
  | [], k, v => [(k, v)]
  | (j, w) :: rest, k, v => if j = k then (j, v) :: rest else (j, w) :: assocSet rest k v

/-- Python `del d[k]`: drop the first binding of `k`. -/
def assocDel {κ α : Type} [DecidableEq κ] : List (κ × α) → κ → List (κ × α)
  | [], _ => []
  | (j, v) :: rest, k => if j = k then rest else (j, v) :: assocDel rest k

/-- Attribute mutation on an existing object: replace the first binding of
`k` when present, leave the list unchanged when absent. -/
def assocUpd {κ α : Type} [DecidableEq κ] : List (κ × α) → κ → α → List (κ × α)
  | [], _, _ => []
  | (j, w) :: rest, k, v => if j = k then (j, v) :: rest else (j, w) :: assocUpd rest k v

/-- Heap node payloads.  `dir` carries the four instance attributes a
`SimDirectory` owns (`files`, `writable`, `parent`, `pathsep`); files are
external collaborators (`SimFileConcrete` lives outside this slice), so a
`file` node keeps only the one attribute this code reads, `writable`. -/
inductive Node where
  | dir (files : List (PyStr × OId)) (writable : Bool) (parent : OId) (pathsep : Char)
  | file (writable : Bool)
  deriving DecidableEq

/-- The Python heap: an allocation counter and the live objects. -/
structure Heap where
  next : OId
  objs : List (OId × Node)
  deriving DecidableEq

/-- Read the object with identity `i`. -/
def hFind (h : Heap) (i : OId) : Option Node := assocGet h.objs i

/-- Overwrite the object with identity `i` (attribute assignment). -/
def hSetNode (h : Heap) (i : OId) (n : Node) : Heap := ⟨h.next, assocUpd h.objs i n⟩

/-- Allocate a fresh object; its identity is `h.next`. -/
def hAlloc (h : Heap) (n : Node) : Heap := ⟨h.next + 1, h.objs ++ [(h.next, n)]⟩

/-- The `files` dictionary of a directory object (empty for non-directories;
used only to state theorems). -/
def filesAt (h : Heap) (i : OId) : List (PyStr × OId) :=
  match hFind h i with
  | some (.dir fs _ _ _) => fs
  | _ => []

/-- The `parent` attribute of a directory object (used only to state
theorems). -/
def parentAt (h : Heap) (i : OId) : Option OId :=
  match hFind h i with
  | some (.dir _ _ p _) => some p
  | _ => none

/-- The `writable` attribute of any node. -/
def nodeWritable : Node → Bool
  | .dir _ w _ _ => w
  | .file w => w

/-- Python exceptions raised by this slice, plus the model-internal `stuck`
marker for exhausted fuel or a dangling object identifier (never produced by
the code the theorems evaluate). -/
inductive PyErr where
  | typeError
  | nameError
  | attributeError
  | mergeTypeError
  | filesystemError
  | stuck
  deriving DecidableEq

/-- The documented tristate of `SimDirectory.lookup`: the resolved object,
Python `None` (not found), or Python `False` (write refused). -/
inductive LookupRes where
  | entry (oid : OId)
  | notFound
  | notWritable
  deriving DecidableEq

/-- The `while path.startswith(self.pathsep): path = path[1:]` loop opening
`SimDirectory._lookup`. -/
def stripLeadingSeps (sep : Char) : PyStr → PyStr
  | [] => []
  | c :: rest => if c = sep then stripLeadingSeps sep rest else c :: rest

/-- The scan `for fname, simfile in self.files.iteritems()` in
`SimDirectory._lookup` (filesystem.py lines 59-71).  A name that is a
segment-aligned proper prefix of the path selects a descent: for a directory
child the source then calls `simfile._lookup(path[len(fname)+1:])` with the
mandatory `writing` parameter missing, which raises TypeError at call time;
for a non-directory child it returns `None` (the symlink TODO). -/
def scanFiles (h : Heap) (sep : Char) (path : PyStr) (writing : Bool) :
    List (PyStr × OId) → Except PyErr LookupRes
  | [] => .ok .notFound
  | (fname, oid) :: rest =>
    if fname.isPrefixOf path then
      if path.length = fname.length then
        match hFind h oid with
        | some n => if writing && !(nodeWritable n) then .ok .notWritable else .ok (.entry oid)
        | none => .error .stuck
      else
        match path.drop fname.length with
        | c :: _ =>
          if c = sep then
            match hFind h oid with
            | some (.dir _ _ _ _) => .error .typeError
            | some (.file _) => .ok .notFound
            | none => .error .stuck
          else scanFiles h sep path writing rest
        | [] => scanFiles h sep path writing rest
    else scanFiles h sep path writing rest

/-- `SimDirectory._lookup` (filesystem.py lines 50-71), called on the object
`oid`: strip leading separators; an empty remainder resolves to the directory
itself subject to the write check; otherwise scan `files`. -/
def underLookup (h : Heap) (oid : OId) (path : PyStr) (writing : Bool) :
    Except PyErr LookupRes :=
  match hFind h oid with
  | some (.dir files w _ sep) =>
    let p := stripLeadingSeps sep path
    if p = [] then
      if writing && !w then .ok .notWritable else .ok (.entry oid)
    else scanFiles h sep p writing files
  | some (.file _) => .error .attributeError
  | none => .error .stuck

/-- The `while root.parent is not root: root = root.parent` ascent in
`SimDirectory.lookup`, with fuel bounding the length of the parent chain. -/
def rootOf : Nat → Heap → OId → Option OId
  | 0, _, _ => none
  | fuel + 1, h, oid =>
    match hFind h oid with
    | some (.dir _ _ par _) => if par = oid then some oid else rootOf fuel h par
    | _ => none

namespace SimDirectory

/-- `SimDirectory.lookup` (filesystem.py lines 29-48): empty paths return
`None` at once; a path starting with the separator is resolved from the tree
root reached by the parent ascent; anything else is resolved from `oid`. -/
def lookup (fuel : Nat) (h : Heap) (oid : OId) (path : PyStr) (writing : Bool) :
    Except PyErr LookupRes :=
  if path.length = 0 then .ok .notFound
  else
    match hFind h oid with
    | some (.dir _ _ _ sep) =>
      match path with
      | c :: rest =>
        if c = sep then
          match rootOf fuel h oid with
          | some r => underLookup h r rest writing
          | none => .error .stuck
        else underLookup h oid path writing
      | [] => .ok .notFound
    | some (.file _) => .error .attributeError
    | none => .error .stuck

end SimDirectory

/-- C10: for every heap, every object and both values of the writing flag,
`SimDirectory.lookup` on the empty path returns the not-found sentinel `None`
(filesystem.py lines 39-40 return before any other work) — not the directory
itself and not the not-writable sentinel. -/
theorem lookup_empty_path_not_found (fuel : Nat) (h : Heap) (oid : OId) (writing : Bool) :
    SimDirectory.lookup fuel h oid [] writing = .ok .notFound := by
  simp [SimDirectory.lookup]

/-- Concrete two-level tree for C2: object 0 is the root, its child "a"
(object 1) is a directory containing "b" (object 2, a file). -/
def heapC2 : Heap :=
  ⟨3, [(0, .dir [(dotP, 0), (ddotP, 0), (['a'], 1)] true 0 '/'),
       (1, .dir [(dotP, 1), (ddotP, 0), (['b'], 2)] true 0 '/'),
       (2, .file true)]⟩

/-- C2: the claim that `lookup` never raises is false.  Resolving the
two-segment relative path "a/b" descends through the child directory "a",
where line 67 invokes `_lookup` without its mandatory `writing` argument, so
the call raises TypeError instead of returning one of the three documented
values — for both values of the writing flag. -/
theorem lookup_descend_raises_type_error :
    SimDirectory.lookup 3 heapC2 0 ['a', '/', 'b'] false = .error .typeError ∧
    SimDirectory.lookup 3 heapC2 0 ['a', '/', 'b'] true = .error .typeError := by
  constructor <;> rfl

/-- Concrete tree for C5: root (object 0) contains "etc" (object 1), which
contains "passwd" (object 2, a file).  The working directory for the
absolute-path half of the claim is "etc" itself. -/
def heapC5 : Heap :=
  ⟨3, [(0, .dir [(dotP, 0), (ddotP, 0), (['e', 't', 'c'], 1)] true 0 '/'),
       (1, .dir [(dotP, 1), (ddotP, 0), (['p', 'a', 's', 's', 'w', 'd'], 2)] true 0 '/'),
       (2, .file true)]⟩

/-- C5: the claimed three-way agreement fails on the code.  From the working
directory "etc", `lookup("/etc/passwd")` ascends to the root and then raises
TypeError on the descent into "etc" (the missing `writing` argument at line
67); `lookup("etc/passwd")` from the root raises the same TypeError; yet the
direct traversal root.files["etc"].files["passwd"] yields the passwd entry
(object 2), so the three results are not all the same entry. -/
theorem lookup_path_equivalence_broken :
    SimDirectory.lookup 4 heapC5 1 ['/', 'e', 't', 'c', '/', 'p', 'a', 's', 's', 'w', 'd'] false
      = .error .typeError ∧
    SimDirectory.lookup 4 heapC5 0 ['e', 't', 'c', '/', 'p', 'a', 's', 's', 'w', 'd'] false
      = .error .typeError ∧
    (assocGet (filesAt heapC5 0) ['e', 't', 'c'] = some 1 ∧
     assocGet (filesAt heapC5 1) ['p', 'a', 's', 's', 'w', 'd'] = some 2) := by
  refine ⟨rfl, rfl, rfl, rfl⟩

/-- The memo map of `SimStatePlugin.copy`: object identity of the original
mapped to its already-produced copy. -/
abbrev Memo := List (OId × OId)

/-- Call descriptors for the memoized copy: `cone` is one `obj.copy(memo)`
call, `cmany` is the dictionary comprehension copying each entry of a `files`
dictionary in order. -/
inductive CCall where
  | cone (oid : OId)
  | cmany (files : List (PyStr × OId))

/-- Results matching `CCall`. -/
inductive CRes where
  | rone (oid : OId) (h : Heap) (m : Memo)
  | rmany (files : List (PyStr × OId)) (h : Heap) (m : Memo)

/-- The memoized copy, embedding `SimStatePlugin.memo` (plugin.py lines
45-57) around `SimDirectory.copy` (filesystem.py lines 139-145).  One unit of
fuel is one call frame; `none` means the budget ran out.

Per the decorator, a `cone` call first consults the memo; on a miss it runs
the wrapped `copy` and only registers `memo[id(self)] = c` after that call
returns.  `SimDirectory.copy` first evaluates the comprehension copying every
entry of `self.files` (the dictionary includes the reserved "." and ".."
entries), then copies `self.parent`, then runs `SimDirectory.__init__` on the
results: the constructor keeps the passed parent (it is not `None`), allocates
the new object and overwrites its "." binding with the new identity and its
".." binding with the copied parent.  File copying is external
(`SimFileConcrete.copy`); it is modelled as allocating an independent file
node under the same memo discipline, which no theorem depends on. -/
def cloneRun : Nat → Heap → Memo → CCall → Option CRes
  | 0, _, _, _ => none
  | fuel + 1, h, memo, .cone oid =>
    match assocGet memo oid with
    | some c => some (.rone c h memo)
    | none =>
      match hFind h oid with
      | some (.dir files w par sep) =>
        match cloneRun fuel h memo (.cmany files) with
        | some (.rmany cfiles h1 m1) =>
          match cloneRun fuel h1 m1 (.cone par) with
          | some (.rone cp h2 m2) =>
            let nid := h2.next
            let nfiles := assocSet (assocSet cfiles dotP nid) ddotP cp
            some (.rone nid (hAlloc h2 (.dir nfiles w cp sep)) (assocSet m2 oid nid))
          | _ => none
        | _ => none
      | some (.file fw) =>
        some (.rone h.next (hAlloc h (.file fw)) (assocSet memo oid h.next))
      | none => none
  | _ + 1, h, memo, .cmany [] => some (.rmany [] h memo)
  | fuel + 1, h, memo, .cmany ((n, e) :: rest) =>
    match cloneRun fuel h memo (.cone e) with
    | some (.rone c h1 m1) =>
      match cloneRun fuel h1 m1 (.cmany rest) with
      | some (.rmany cs h2 m2) => some (.rmany ((n, c) :: cs) h2 m2)
      | _ => none
    | _ => none

namespace SimDirectory

/-- `obj.copy(memo)` through the `SimStatePlugin.memo` decorator. -/
def copy (fuel : Nat) (h : Heap) (memo : Memo) (oid : OId) : Option (OId × Heap × Memo) :=
  match cloneRun fuel h memo (.cone oid) with
  | some (.rone c h' m') => some (c, h', m')
  | _ => none

end SimDirectory

/-- A one-node filesystem: the root directory (object 0) is its own parent and
its `files` dictionary holds the constructor-installed "." and ".." entries,
both pointing back at itself. -/
def heapRoot : Heap := ⟨1, [(0, .dir [(dotP, 0), (ddotP, 0)] true 0 '/')]⟩

/-- No fuel bound suffices for either the root copy call or the comprehension
over the root's `files`: the memo is still empty when the "." entry is copied,
so the same call recurs with an unchanged memo. -/
theorem cloneRun_root_diverges (fuel : Nat) :
    cloneRun fuel heapRoot [] (.cone 0) = none ∧
    cloneRun fuel heapRoot [] (.cmany [(dotP, 0), (ddotP, 0)]) = none := by
  induction fuel with
  | zero => exact ⟨rfl, rfl⟩
  | succ n ih =>
    refine ⟨?_, ?_⟩
    · show cloneRun (n + 1) heapRoot [] (.cone 0) = none
      have hf : hFind heapRoot 0 = some (Node.dir [(dotP, 0), (ddotP, 0)] true 0 '/') := rfl
      simp [cloneRun, assocGet, hf, ih.2]
    · show cloneRun (n + 1) heapRoot [] (.cmany [(dotP, 0), (ddotP, 0)]) = none
      simp [cloneRun, ih.1]

/-- C1: the claim that `copy` registers the fresh copy in `memo` before
recursing — and therefore terminates on the "."/".." self-cycle — is false on
the code.  The decorator `SimStatePlugin.memo` stores `memo[id(self)] = c`
only after the wrapped `copy` returns, and `SimDirectory.copy` recurses into
`self.files` (which always contains the "." self-entry) before that point, so
copying the root directory re-enters itself with an unchanged empty memo and
never terminates: no recursion budget makes the call return. -/
theorem copy_self_cycle_diverges (fuel : Nat) :
    SimDirectory.copy fuel heapRoot [] 0 = none := by
  simp [SimDirectory.copy, (cloneRun_root_diverges fuel).1]

/-- The loop `while len(path) > 1 and path[-1] == self.pathsep` of `insert`
and `remove`, acting on the reversed string: drop leading separators while at
least two characters remain. -/
def dropSepsInit (sep : Char) : PyStr → PyStr
  | [] => []
  | [c] => [c]
  | c :: rest => if c = sep then dropSepsInit sep rest else c :: rest

/-- Trailing-separator normalization shared by `insert` and `remove`
(filesystem.py lines 82-83 and 115-118). -/
def stripTrailingSeps (sep : Char) (p : PyStr) : PyStr :=
  (dropSepsInit sep p.reverse).reverse

theorem dropSepsInit_of_not_mem (sep : Char) :
    ∀ l : PyStr, sep ∉ l → dropSepsInit sep l = l
  | [], _ => rfl
  | [_], _ => rfl
  | c :: d :: rest, hmem => by
    have hc : ¬(c = sep) := fun hcs => hmem (hcs ▸ List.mem_cons_self c (d :: rest))
    have hrest : sep ∉ d :: rest := fun hs => hmem (List.mem_cons_of_mem c hs)
    simp only [dropSepsInit, if_neg hc]

theorem stripTrailingSeps_of_not_mem (sep : Char) (p : PyStr) (hsep : sep ∉ p) :
    stripTrailingSeps sep p = p := by
  unfold stripTrailingSeps
  rw [dropSepsInit_of_not_mem sep p.reverse (by simpa using hsep),
    List.reverse_reverse]

/-- `lastsep = path.rindex(self.pathsep) + 1; head, tail = path[:lastsep],
path[lastsep:]`: the head keeps the final separator, the tail is the part
after it. -/
def splitLast (sep : Char) (p : PyStr) : PyStr × PyStr :=
  ((p.reverse.dropWhile fun c => !(c = sep)).reverse,
   (p.reverse.takeWhile fun c => !(c = sep)).reverse)

/-- Python truthiness of a resolved entry, used by `if not parent:` in the
multi-segment branches of `insert` and `remove`.  A `SimDirectory` defines
`__len__`, so its truth value is `len(self.files) != 0`; `SimFile` is an
external collaborator with no length contract in this slice and is modelled
as truthy (the default for objects), which no theorem depends on. -/
def pyTruthy (h : Heap) (oid : OId) : Bool :=
  match hFind h oid with
  | some (.dir fs _ _ _) => fs.length != 0
  | some (.file _) => true
  | none => true

namespace SimDirectory

/-- The body of `SimDirectory.insert` (filesystem.py lines 85-105) after the
trailing-separator normalization, with `files`, `w`, `par`, `sep` the
attributes of the directory `selfId` and `recur` the recursive call for the
multi-segment branch.  Separator-free case: an existing name fails; a
directory argument that is its own parent (a detached root) gets its
`parent` and `pathsep` attributes reassigned — and nothing else: its ".."
entry is left untouched — while one with a different parent only provokes a
log line; then the name is bound.  (`simfile.set_state(self.state)` touches
only the owner back-reference, which is not part of the model.)
Multi-segment case: split at the last separator, resolve the head with
writing intent through `lookup`, and delegate to the resolved object — an
exception from `lookup` propagates, a falsy result returns failure, and
delegation to a file raises AttributeError since the external `SimFile`
exposes no `insert`. -/
def insertRest (recur : Heap → OId → PyStr → OId → (Except PyErr Bool) × Heap)
    (lfuel : Nat) (h : Heap) (selfId : OId) (files : List (PyStr × OId))
    (sep : Char) (path : PyStr) (simfile : OId) : (Except PyErr Bool) × Heap :=
  if sep ∈ path then
    match lookup lfuel h selfId (splitLast sep path).1 true with
    | .error e => (.error e, h)
    | .ok .notFound => (.ok false, h)
    | .ok .notWritable => (.ok false, h)
    | .ok (.entry t) =>
      if pyTruthy h t then
        match hFind h t with
        | some (.dir _ _ _ _) => recur h t (splitLast sep path).2 simfile
        | some (.file _) => (.error .attributeError, h)
        | none => (.error .stuck, h)
      else (.ok false, h)
  else
    if (assocGet files path).isSome then (.ok false, h)
    else
      let h1 :=
        match hFind h simfile with
        | some (.dir sfs sw sp _) =>
          if sp = simfile then hSetNode h simfile (.dir sfs sw selfId sep) else h
        | _ => h
      match hFind h1 selfId with
      | some (.dir f1 w1 p1 s1) =>
        (.ok true, hSetNode h1 selfId (.dir (assocSet f1 path simfile) w1 p1 s1))
      | _ => (.error .stuck, h1)

/-- `SimDirectory.insert` (filesystem.py lines 73-105). -/
def insert : Nat → Heap → OId → PyStr → OId → (Except PyErr Bool) × Heap
  | 0, h, _, _, _ => (.error .stuck, h)
  | fuel + 1, h, selfId, path0, simfile =>
    match hFind h selfId with
    | some (.dir files _ _ sep) =>
      insertRest (insert fuel) (fuel + 1) h selfId files sep
        (stripTrailingSeps sep path0) simfile
    | some (.file _) => (.error .attributeError, h)
    | none => (.error .stuck, h)

/-- The body of `SimDirectory.remove` (filesystem.py lines 120-137) after the
trailing-separator normalization.  Separator-free case, in source order: the
reserved names "." and ".." fail; an absent name fails; a directory target
whose `len` (the size of its `files` dictionary) differs from 2 fails;
otherwise the binding is deleted and the call succeeds.  Multi-segment case:
resolve the head with writing intent and delegate, as in `insert`. -/
def removeRest (recur : Heap → OId → PyStr → (Except PyErr Bool) × Heap)
    (lfuel : Nat) (h : Heap) (selfId : OId) (files : List (PyStr × OId))
    (w : Bool) (par : OId) (sep : Char) (path : PyStr) : (Except PyErr Bool) × Heap :=
  if sep ∈ path then
    match lookup lfuel h selfId (splitLast sep path).1 true with
    | .error e => (.error e, h)
    | .ok .notFound => (.ok false, h)
    | .ok .notWritable => (.ok false, h)
    | .ok (.entry t) =>
      if pyTruthy h t then
        match hFind h t with
        | some (.dir _ _ _ _) => recur h t (splitLast sep path).2
        | some (.file _) => (.error .attributeError, h)
        | none => (.error .stuck, h)
      else (.ok false, h)
  else
    if path = dotP ∨ path = ddotP then (.ok false, h)
    else
      match assocGet files path with
      | none => (.ok false, h)
      | some t =>
        match hFind h t with
        | some (.dir tfs _ _ _) =>
          if tfs.length ≠ 2 then (.ok false, h)
          else (.ok true, hSetNode h selfId (.dir (assocDel files path) w par sep))
        | some (.file _) =>
          (.ok true, hSetNode h selfId (.dir (assocDel files path) w par sep))
        | none => (.error .stuck, h)

/-- `SimDirectory.remove` (filesystem.py lines 107-137). -/
def remove : Nat → Heap → OId → PyStr → (Except PyErr Bool) × Heap
  | 0, h, _, _ => (.error .stuck, h)
  | fuel + 1, h, selfId, path0 =>
    match hFind h selfId with
    | some (.dir files w par sep) =>
      removeRest (remove fuel) (fuel + 1) h selfId files w par sep
        (stripTrailingSeps sep path0)
    | some (.file _) => (.error .attributeError, h)
    | none => (.error .stuck, h)

end SimDirectory

/-- Heap for C3: object 0 is a root filesystem, object 1 a detached root
directory (its own parent, ".." bound to itself) about to be inserted. -/
def heapC3 : Heap :=
  ⟨2, [(0, .dir [(dotP, 0), (ddotP, 0)] true 0 '/'),
       (1, .dir [(dotP, 1), (ddotP, 1)] true 1 '/')]⟩

/-- C3: the "." and ".." invariant is not preserved by `insert`.  Inserting
the detached-root directory (object 1) under the root as "d" succeeds and
re-parents it (`simfile.parent = self`, filesystem.py line 90), but nothing
updates its `files[".."]` binding, which keeps pointing at the inserted
directory itself: afterwards `files[".."]` and `parent` disagree on the
reachable directory object 1. -/
theorem insert_reparent_breaks_dotdot :
    (SimDirectory.insert 1 heapC3 0 ['d'] 1).1 = .ok true ∧
    parentAt (SimDirectory.insert 1 heapC3 0 ['d'] 1).2 1 = some 0 ∧
    assocGet (filesAt (SimDirectory.insert 1 heapC3 0 ['d'] 1).2 1) ddotP = some 1 ∧
    assocGet (filesAt (SimDirectory.insert 1 heapC3 0 ['d'] 1).2 1) ddotP ≠
      parentAt (SimDirectory.insert 1 heapC3 0 ['d'] 1).2 1 := by
  refine ⟨rfl, rfl, rfl, by decide⟩

/-- C6: behaviour of `remove` on a separator-free path, exactly as the code
decides it.  The call fails — returning Python `False` and leaving the heap,
hence the `files` dictionary, untouched — when the path is "." or "..", when
no child of that name exists, or when the target is a directory whose
`files` count differs from the two reserved entries (`len(...) != 2`, the
emptiness test of line 125); otherwise — the target is a file, or a directory
holding exactly its two reserved entries — the binding is deleted from
`files` and the call returns `True`. -/
theorem remove_sepfree_cases (fuel : Nat) (h : Heap) (selfId : OId)
    (files : List (PyStr × OId)) (w : Bool) (par : OId) (sep : Char) (path : PyStr)
    (hself : hFind h selfId = some (.dir files w par sep))
    (hsep : sep ∉ path) :
    ((path = dotP ∨ path = ddotP ∨ assocGet files path = none ∨
        (∃ t tfs tw tp ts, assocGet files path = some t ∧
          hFind h t = some (.dir tfs tw tp ts) ∧ tfs.length ≠ 2)) →
      SimDirectory.remove (fuel + 1) h selfId path = (.ok false, h)) ∧
    (∀ t, assocGet files path = some t → path ≠ dotP → path ≠ ddotP →
      ((∃ bw, hFind h t = some (.file bw)) ∨
       (∃ tfs tw tp ts, hFind h t = some (.dir tfs tw tp ts) ∧ tfs.length = 2)) →
      SimDirectory.remove (fuel + 1) h selfId path =
        (.ok true, hSetNode h selfId (.dir (assocDel files path) w par sep))) := by
  have hbase : SimDirectory.remove (fuel + 1) h selfId path =
      SimDirectory.removeRest (SimDirectory.remove fuel) (fuel + 1) h selfId
        files w par sep path := by
    simp only [SimDirectory.remove, hself, stripTrailingSeps_of_not_mem sep path hsep]
  constructor
  · intro hcase
    rw [hbase]
    unfold SimDirectory.removeRest
    rw [if_neg hsep]
    rcases hcase with hdot | hdot | habs | ⟨t, tfs, tw, tp, ts, hget, htf, hlen⟩
    · rw [if_pos (Or.inl hdot)]
    · rw [if_pos (Or.inr hdot)]
    · by_cases hd : path = dotP ∨ path = ddotP
      · rw [if_pos hd]
      · rw [if_neg hd, habs]
    · by_cases hd : path = dotP ∨ path = ddotP
      · rw [if_pos hd]
      · rw [if_neg hd, hget]
        simp only [htf, if_pos hlen]
  · intro t hget hd1 hd2 hkind
    rw [hbase]
    unfold SimDirectory.removeRest
    rw [if_neg hsep, if_neg (by rintro (hc | hc) <;> [exact hd1 hc; exact hd2 hc]), hget]
    rcases hkind with ⟨bw, htf⟩ | ⟨tfs, tw, tp, ts, htf, hlen⟩
    · simp only [htf]
    · simp only [htf, hlen]
      rw [if_neg (by simp)]

/-- Heap for the C6 witness: the root (object 0) holds a file "a" (object 1),
a non-empty subdirectory "d" (object 2, three entries) and an empty
subdirectory "e" (object 3, exactly the two reserved entries). -/
def heapC6 : Heap :=
  ⟨4, [(0, .dir [(dotP, 0), (ddotP, 0), (['a'], 1), (['d'], 2), (['e'], 3)] true 0 '/'),
       (1, .file true),
       (2, .dir [(dotP, 2), (ddotP, 0), (['x'], 1)] true 0 '/'),
       (3, .dir [(dotP, 3), (ddotP, 0)] true 0 '/')]⟩

/-- Witness for C6 at concrete inputs: removing the non-empty directory "d"
fails and leaves the heap unchanged, and removing the empty directory "e"
succeeds and deletes the binding. -/
theorem remove_sepfree_cases_witness :
    hFind heapC6 0 = some (.dir [(dotP, 0), (ddotP, 0), (['a'], 1), (['d'], 2), (['e'], 3)]
      true 0 '/') ∧
    ('/' : Char) ∉ ['d'] ∧ ('/' : Char) ∉ ['e'] ∧
    SimDirectory.remove 1 heapC6 0 ['d'] = (.ok false, heapC6) ∧
    SimDirectory.remove 1 heapC6 0 ['e'] =
      (.ok true, hSetNode heapC6 0 (.dir
        (assocDel [(dotP, 0), (ddotP, 0), (['a'], 1), (['d'], 2), (['e'], 3)] ['e'])
        true 0 '/')) := by
  refine ⟨rfl, by decide, by decide, ?_, ?_⟩
  · exact (remove_sepfree_cases 0 heapC6 0 _ true 0 '/' ['d'] rfl (by decide)).1
      (Or.inr (Or.inr (Or.inr ⟨2, [(dotP, 2), (ddotP, 0), (['x'], 1)], true, 0, '/',
        rfl, rfl, by decide⟩)))
  · exact (remove_sepfree_cases 0 heapC6 0 _ true 0 '/' ['e'] rfl (by decide)).2
      3 rfl (by decide) (by decide)
      (Or.inr ⟨[(dotP, 3), (ddotP, 0)], true, 0, '/', rfl, rfl⟩)

/-- One value of the working map `new_files` built by `SimDirectory.merge`
(filesystem.py line 148): the primary entry, the sibling entries collected
from the other branches, and their guarding conditions.  Conditions are
opaque to this code (it only threads them through), so they are modelled as
bare identifiers. -/
abbrev MTriple := OId × List OId × List Nat

/-- The working map of `merge`. -/
abbrev MAcc := List (PyStr × MTriple)

/-- Line 148: the comprehension seeding `new_files` from the non-reserved
entries of `self.files`, each with empty sibling and condition lists. -/
def initAcc : List (PyStr × OId) → MAcc
  | [] => []
  | (n, v) :: rest =>
    if n = dotP ∨ n = ddotP then initAcc rest
    else (n, (v, [], [])) :: initAcc rest

/-- Lines 152-160: folding the `files` dictionary of one other branch into
the working map.  Reserved names are skipped; a name absent from the map is
inserted with empty lists (its guarding condition is dropped — the logged
representational limitation); a present name has the sibling entry and its
condition appended. -/
def foldOtherFiles (cond : Nat) : MAcc → List (PyStr × OId) → MAcc
  | acc, [] => acc
  | acc, (n, v) :: rest =>
    if n = dotP ∨ n = ddotP then foldOtherFiles cond acc rest
    else
      match assocGet acc n with
      | some (p, sibs, cs) =>
        foldOtherFiles cond (assocSet acc n (p, sibs ++ [v], cs ++ [cond])) rest
      | none => foldOtherFiles cond (assocSet acc n (v, [], [])) rest

/-- Lines 149-160: the loop over `zip(others, conditions)`.  Each other is
first checked to be of the very same type as `self` (`SimDirectory`); a
mismatch raises SimMergeError on the spot, before any mutation. -/
def foldOthers (h : Heap) : MAcc → List (OId × Nat) → Except PyErr MAcc
  | acc, [] => .ok acc
  | acc, (other, cond) :: rest =>
    match hFind h other with
    | some (.dir ofs _ _ _) => foldOthers h (foldOtherFiles cond acc ofs) rest
    | some (.file _) => .error .mergeTypeError
    | none => .error .stuck

/-- Modelled from the spec: `SimFile.merge(siblings, conditions, ancestor)`
lives in the external file-content collaborator (`storage/file.py`, outside
this slice).  Per the spec it folds the contents in place under the same
type-compatibility failure as directories and reports whether anything was
folded; contents are not part of this model, so the fold leaves the heap
unchanged, and its return value is discarded by the caller in any case. -/
def fileMerge (h : Heap) (sibs : List OId) : (Except PyErr (Option Bool)) × Heap :=
  if sibs.all fun s => match hFind h s with | some (.file _) => true | _ => false
  then (.ok (some false), h)
  else (.error .mergeTypeError, h)

/-- Call descriptors for the mutually recursive merge: a `SimDirectory.merge`
call, the loop over the working map invoking each entry's own merge (lines
162-164), and one entry-level merge dispatched on the entry's kind. -/
inductive MCall where
  | mdir (selfId : OId) (others : List OId) (conditions : List Nat) (anc : Option OId)
  | mentries (acc : MAcc) (anc : Option OId)
  | mentry (oid : OId) (sibs : List OId) (conds : List Nat) (anc : Option OId)

/-- `SimDirectory.merge` (filesystem.py lines 147-167) and its recursion into
entries.  One unit of fuel per call frame.

An `mdir` call builds the working map (lines 148-160), runs every entry's own
merge (lines 162-164, mutating the heap but never the key set), then restores
the reserved "." and ".." bindings and reassigns `self.files` (lines
165-167).  The function body ends without a `return` statement, so the call
returns Python `None`, modelled as the `.ok none` payload.  An `mentry` call
dispatches on the entry: directories recurse into `SimDirectory.merge`,
files go to the external collaborator `fileMerge`. -/
def mergeRun : Nat → Heap → MCall → (Except PyErr (Option Bool)) × Heap
  | 0, h, _ => (.error .stuck, h)
  | fuel + 1, h, .mdir selfId others conditions anc =>
    match hFind h selfId with
    | some (.dir files _ _ _) =>
      match foldOthers h (initAcc files) (others.zip conditions) with
      | .error e => (.error e, h)
      | .ok acc =>
        match mergeRun fuel h (.mentries acc anc) with
        | (.error e, h1) => (.error e, h1)
        | (.ok _, h1) =>
          match hFind h1 selfId with
          | some (.dir _ w1 p1 s1) =>
            (.ok none, hSetNode h1 selfId (.dir
              (assocSet (assocSet (acc.map fun p => (p.1, p.2.1)) dotP selfId) ddotP p1)
              w1 p1 s1))
          | _ => (.error .stuck, h1)
    | _ => (.error .stuck, h)
  | _ + 1, h, .mentries [] _ => (.ok none, h)
  | fuel + 1, h, .mentries ((_, (prim, sibs, conds)) :: rest) anc =>
    match mergeRun fuel h (.mentry prim sibs conds anc) with
    | (.error e, h1) => (.error e, h1)
    | (.ok _, h1) => mergeRun fuel h1 (.mentries rest anc)
  | fuel + 1, h, .mentry oid sibs conds anc =>
    match hFind h oid with
    | some (.dir _ _ _ _) => mergeRun fuel h (.mdir oid sibs conds anc)
    | some (.file _) => fileMerge h sibs
    | none => ((.error .stuck, h) : (Except PyErr (Option Bool)) × Heap)

namespace SimDirectory

/-- `self.merge(others, conditions, ancestor)` on the directory `selfId`. -/
def merge (fuel : Nat) (h : Heap) (selfId : OId) (others : List OId)
    (conditions : List Nat) (anc : Option OId) : (Except PyErr (Option Bool)) × Heap :=
  mergeRun fuel h (.mdir selfId others conditions anc)

end SimDirectory

/-- The entry a name would receive from the other branches, in branch order:
the value bound to `k` in the `files` of the first other that contains it.
Used to state what `merge` leaves as the primary entry of a name absent from
`self`. -/
def firstOtherVal (h : Heap) (k : PyStr) : List (OId × Nat) → Option OId
  | [] => none
  | (other, _) :: rest =>
    match hFind h other with
    | some (.dir ofs _ _ _) =>
      match assocGet ofs k with
      | some v => some v
      | none => firstOtherVal h k rest
    | _ => none

/-- The primary entry recorded for `k` in a working map. -/
def primAt (acc : MAcc) (k : PyStr) : Option OId :=
  (assocGet acc k).map fun t => t.1

/-- Left-biased choice on options, for stating the merge lemmas. -/
def pOr {α : Type} : Option α → Option α → Option α
  | some x, _ => some x
  | none, b => b

/-- Heap for C4: the directory being merged (object 0) holds a subdirectory
"a" (object 3); the other branch (object 1) holds its own "a" (object 4) and
an extra subdirectory "b" (object 5) — a real divergence to fold. -/
def heapC4 : Heap :=
  ⟨6, [(0, .dir [(dotP, 0), (ddotP, 0), (['a'], 3)] true 0 '/'),
       (1, .dir [(dotP, 1), (ddotP, 1), (['a'], 4), (['b'], 5)] true 1 '/'),
       (3, .dir [(dotP, 3), (ddotP, 0)] true 0 '/'),
       (4, .dir [(dotP, 4), (ddotP, 1)] true 1 '/'),
       (5, .dir [(dotP, 5), (ddotP, 1)] true 1 '/')]⟩

/-- C4: the claim that `merge` returns a boolean — true iff some divergence
was folded — is false on the code.  `SimDirectory.merge` mutates `self` in
place (afterwards the branch-2-only entry "b" is present in `self.files`),
but its body has no `return` statement, so the call returns Python `None`
(`.ok none`), not `True`, even though a divergence was just folded. -/
theorem merge_returns_none :
    (SimDirectory.merge 10 heapC4 0 [1] [7] none).1 = .ok none ∧
    assocGet (filesAt (SimDirectory.merge 10 heapC4 0 [1] [7] none).2 0) ['b'] = some 5 := by
  exact ⟨rfl, rfl⟩

theorem pOr_none {α : Type} (a : Option α) : pOr a none = a := by
  cases a <;> rfl

theorem pOr_assoc {α : Type} (a b c : Option α) : pOr (pOr a b) c = pOr a (pOr b c) := by
  cases a <;> rfl

theorem assocGet_assocSet {κ α : Type} [DecidableEq κ]
    (l : List (κ × α)) (k : κ) (v : α) (k' : κ) :
    assocGet (assocSet l k v) k' = if k = k' then some v else assocGet l k' := by
  induction l with
  | nil => by_cases hk : k = k' <;> simp [assocGet, assocSet, hk]
  | cons p rest ih =>
    obtain ⟨j, u⟩ := p
    by_cases hj : j = k
    · subst hj
      by_cases hk : j = k' <;> simp [assocGet, assocSet, hk]
    · by_cases hk : j = k' <;> by_cases hk2 : k = k' <;>
        simp_all [assocGet, assocSet, hj, hk, hk2]

theorem assocGet_assocUpd_self {κ α : Type} [DecidableEq κ]
    (l : List (κ × α)) (k : κ) (v w : α) (hw : assocGet l k = some w) :
    assocGet (assocUpd l k v) k = some v := by
  induction l with
  | nil => simp [assocGet] at hw
  | cons p rest ih =>
    obtain ⟨j, u⟩ := p
    by_cases hj : j = k
    · simp [assocGet, assocUpd, hj]
    · simp only [assocGet, assocUpd, if_neg hj] at hw ⊢
      exact ih hw

theorem hFind_hSetNode_self (h : Heap) (i : OId) (m n : Node)
    (hf : hFind h i = some m) : hFind (hSetNode h i n) i = some n :=
  assocGet_assocUpd_self h.objs i n m hf

theorem primAt_cons (n : PyStr) (t : MTriple) (rest : MAcc) (k : PyStr) :
    primAt ((n, t) :: rest) k = if n = k then some t.1 else primAt rest k := by
  by_cases hn : n = k <;> simp [primAt, assocGet, hn]

theorem assocGet_map_fst (acc : MAcc) (k : PyStr) :
    assocGet (acc.map fun p => (p.1, p.2.1)) k = primAt acc k := by
  induction acc with
  | nil => rfl
  | cons p rest ih =>
    obtain ⟨n, t⟩ := p
    by_cases hn : n = k <;> simp [assocGet, primAt_cons, hn, ih]

theorem primAt_assocSet (acc : MAcc) (k : PyStr) (t : MTriple) (k' : PyStr) :
    primAt (assocSet acc k t) k' = if k = k' then some t.1 else primAt acc k' := by
  unfold primAt
  rw [assocGet_assocSet]
  by_cases hk : k = k' <;> simp [hk]

theorem primAt_initAcc (files : List (PyStr × OId)) (k : PyStr)
    (h1 : k ≠ dotP) (h2 : k ≠ ddotP) :
    primAt (initAcc files) k = assocGet files k := by
  induction files with
  | nil => rfl
  | cons p rest ih =>
    obtain ⟨n, v⟩ := p
    by_cases hn : n = dotP ∨ n = ddotP
    · have hnk : ¬(n = k) := by
        rintro rfl
        rcases hn with hn | hn
        · exact h1 hn
        · exact h2 hn
      simp [initAcc, if_pos hn, assocGet, hnk, ih]
    · simp only [initAcc, if_neg hn, primAt_cons, assocGet]
      by_cases hnk : n = k <;> simp [hnk, ih]

theorem primAt_foldOtherFiles (cond : Nat) (k : PyStr)
    (h1 : k ≠ dotP) (h2 : k ≠ ddotP) :
    ∀ (ofs : List (PyStr × OId)) (acc : MAcc),
      primAt (foldOtherFiles cond acc ofs) k = pOr (primAt acc k) (assocGet ofs k)
  | [], acc => by simp [foldOtherFiles, assocGet, pOr_none]
  | (n, v) :: rest, acc => by
    by_cases hn : n = dotP ∨ n = ddotP
    · have hnk : ¬(n = k) := by
        rintro rfl
        rcases hn with hn | hn
        · exact h1 hn
        · exact h2 hn
      simp only [foldOtherFiles, if_pos hn, assocGet, if_neg hnk]
      exact primAt_foldOtherFiles cond k h1 h2 rest acc
    · simp only [foldOtherFiles, if_neg hn]
      cases hga : assocGet acc n with
      | some t =>
        obtain ⟨p, sibs, cs⟩ := t
        rw [primAt_foldOtherFiles cond k h1 h2 rest _]
        rw [primAt_assocSet]
        by_cases hnk : n = k
        · subst hnk
          have hp : primAt acc n = some p := by simp [primAt, hga]
          simp [assocGet, hp, pOr]
        · simp [assocGet, if_neg hnk, if_neg hnk]
      | none =>
        rw [primAt_foldOtherFiles cond k h1 h2 rest _]
        rw [primAt_assocSet]
        by_cases hnk : n = k
        · subst hnk
          have hp : primAt acc n = none := by simp [primAt, hga]
          simp [assocGet, hp, pOr]
        · simp [assocGet, if_neg hnk, if_neg hnk]

theorem primAt_foldOthers (h : Heap) (k : PyStr) (h1 : k ≠ dotP) (h2 : k ≠ ddotP) :
    ∀ (zs : List (OId × Nat)) (acc acc' : MAcc),
      foldOthers h acc zs = .ok acc' →
      primAt acc' k = pOr (primAt acc k) (firstOtherVal h k zs)
  | [], acc, acc', hok => by
    simp only [foldOthers, Except.ok.injEq] at hok
    subst hok
    simp [firstOtherVal, pOr_none]
  | (o, c) :: rest, acc, acc', hok => by
    simp only [foldOthers] at hok
    cases hfo : hFind h o with
    | none => rw [hfo] at hok; simp at hok
    | some node =>
      cases node with
      | file fw => rw [hfo] at hok; simp at hok
      | dir ofs ow op os =>
        rw [hfo] at hok
        have ih := primAt_foldOthers h k h1 h2 rest _ _ hok
        have hcons : firstOtherVal h k ((o, c) :: rest) =
            pOr (assocGet ofs k) (firstOtherVal h k rest) := by
          simp only [firstOtherVal, hfo]
          cases assocGet ofs k <;> rfl
        rw [ih, primAt_foldOtherFiles c k h1 h2 ofs acc, pOr_assoc, hcons]

/-- C7: after a `merge` call that returns normally, the non-reserved child
names of the directory are exactly the union of its own and every other's
non-reserved names, with `self`'s original entry kept as primary for a name
`self` already had, and — for a name absent from `self` — the entry of the
first other branch containing it installed as a plain, unconditional binding
(the guarding condition of the inserting branch is dropped, the logged
representational limitation).  In particular merging any number of identical
copies leaves the name set and the primary entries unchanged. -/
theorem merge_children_union (fuel : Nat) (h h' : Heap) (selfId : OId)
    (files : List (PyStr × OId)) (w : Bool) (par : OId) (sep : Char)
    (others : List OId) (conditions : List Nat) (anc : Option OId) (r : Option Bool)
    (hself : hFind h selfId = some (.dir files w par sep))
    (hlen : others.length = conditions.length)
    (hok : SimDirectory.merge fuel h selfId others conditions anc = (.ok r, h')) :
    ∀ k, k ≠ dotP → k ≠ ddotP →
      assocGet (filesAt h' selfId) k =
        pOr (assocGet files k) (firstOtherVal h k (others.zip conditions)) := by
  intro k hk1 hk2
  cases fuel with
  | zero =>
    exact absurd hok (by simp [SimDirectory.merge, mergeRun])
  | succ n =>
    simp only [SimDirectory.merge, mergeRun, hself] at hok
    cases hfo : foldOthers h (initAcc files) (others.zip conditions) with
    | error e => rw [hfo] at hok; simp at hok
    | ok acc =>
      rw [hfo] at hok
      dsimp only at hok
      rcases hem : mergeRun n h (.mentries acc anc) with ⟨er, h1⟩
      rw [hem] at hok
      cases er with
      | error e => simp at hok
      | ok v =>
        dsimp only at hok
        cases hf1 : hFind h1 selfId with
        | none => rw [hf1] at hok; simp at hok
        | some node =>
          cases node with
          | file fw => rw [hf1] at hok; simp at hok
          | dir f1 w1 p1 s1 =>
            rw [hf1] at hok
            dsimp only at hok
            simp only [Prod.mk.injEq, Except.ok.injEq] at hok
            obtain ⟨-, hh'⟩ := hok
            subst hh'
            have hfound := hFind_hSetNode_self h1 selfId (.dir f1 w1 p1 s1)
              (.dir (assocSet (assocSet (acc.map fun p => (p.1, p.2.1)) dotP selfId) ddotP p1)
                w1 p1 s1) hf1
            rw [filesAt, hfound]
            rw [assocGet_assocSet, if_neg (fun hc => hk2 hc.symm)]
            rw [assocGet_assocSet, if_neg (fun hc => hk1 hc.symm)]
            rw [assocGet_map_fst]
            rw [primAt_foldOthers h k hk1 hk2 _ _ _ hfo]
            rw [primAt_initAcc files k hk1 hk2]

/-- Heap for the C7 witness: the merged directory (object 0) holds "a"
(object 3); the single other branch (object 1) holds only "c" (object 4). -/
def heapC7 : Heap :=
  ⟨5, [(0, .dir [(dotP, 0), (ddotP, 0), (['a'], 3)] true 0 '/'),
       (1, .dir [(dotP, 1), (ddotP, 1), (['c'], 4)] true 1 '/'),
       (3, .dir [(dotP, 3), (ddotP, 0)] true 0 '/'),
       (4, .dir [(dotP, 4), (ddotP, 1)] true 1 '/')]⟩

/-- The heap produced by the C7 witness merge. -/
def heapC7post : Heap := (SimDirectory.merge 8 heapC7 0 [1] [9] none).2

/-- Witness for C7: merging object 0 with the single other branch object 1
satisfies every hypothesis of `merge_children_union`, whose conclusion then
describes the resulting child map. -/
theorem merge_children_union_witness :
    hFind heapC7 0 = some (.dir [(dotP, 0), (ddotP, 0), (['a'], 3)] true 0 '/') ∧
    [1].length = [9].length ∧
    SimDirectory.merge 8 heapC7 0 [1] [9] none = (.ok none, heapC7post) ∧
    ∀ k, k ≠ dotP → k ≠ ddotP →
      assocGet (filesAt heapC7post 0) k =
        pOr (assocGet [(dotP, 0), (ddotP, 0), (['a'], 3)] k)
          (firstOtherVal heapC7 k ([1].zip [9])) := by
  exact ⟨rfl, rfl, rfl,
    merge_children_union 8 heapC7 heapC7post 0 _ true 0 '/' [1] [9] none none rfl rfl rfl⟩

theorem foldOthers_bad (h : Heap) (bad : OId) (rest : List OId)
    (hbad : ∃ bw, hFind h bad = some (.file bw)) :
    ∀ (pre : List OId) (conds : List Nat) (acc : MAcc),
      (∀ o ∈ pre, ∃ fs ww pp ss, hFind h o = some (.dir fs ww pp ss)) →
      conds.length = (pre ++ bad :: rest).length →
      foldOthers h acc ((pre ++ bad :: rest).zip conds) = .error .mergeTypeError
  | [], conds, acc, _, hlen => by
    cases conds with
    | nil => simp at hlen
    | cons c cs =>
      obtain ⟨bw, hb⟩ := hbad
      simp [foldOthers, hb]
  | o :: pre', conds, acc, hpre, hlen => by
    cases conds with
    | nil => simp at hlen
    | cons c cs =>
      obtain ⟨fs, ww, pp, ss, ho⟩ := hpre o (List.mem_cons_self o pre')
      simp only [List.cons_append, List.zip_cons_cons, foldOthers, ho]
      exact foldOthers_bad h bad rest hbad pre' cs _
        (fun o' ho' => hpre o' (List.mem_cons_of_mem o ho'))
        (by simpa using hlen)

/-- C9: when some other in the argument list is not a `SimDirectory` — here,
after any run of structurally compatible directory branches — `merge` raises
SimMergeError from the type check at line 150 and returns with the heap, and
hence the directory's `files` dictionary, exactly as it was: `self.files` is
only reassigned at line 167 after every branch has been folded, so no partial
fold is ever visible. -/
theorem merge_type_error_preserves_files (fuel : Nat) (h : Heap) (selfId : OId)
    (files : List (PyStr × OId)) (w : Bool) (par : OId) (sep : Char)
    (pre : List OId) (bad : OId) (rest : List OId) (conds : List Nat) (anc : Option OId)
    (hself : hFind h selfId = some (.dir files w par sep))
    (hpre : ∀ o ∈ pre, ∃ fs ww pp ss, hFind h o = some (.dir fs ww pp ss))
    (hbad : ∃ bw, hFind h bad = some (.file bw))
    (hlen : conds.length = (pre ++ bad :: rest).length) :
    SimDirectory.merge (fuel + 1) h selfId (pre ++ bad :: rest) conds anc =
      (.error .mergeTypeError, h) := by
  simp only [SimDirectory.merge, mergeRun, hself]
  rw [foldOthers_bad h bad rest hbad pre conds (initAcc files) hpre hlen]

/-- Heap for the C9 witness: the merged directory (object 0), a compatible
directory branch (object 2) preceding the incompatible file branch
(object 1). -/
def heapC9 : Heap :=
  ⟨3, [(0, .dir [(dotP, 0), (ddotP, 0)] true 0 '/'),
       (1, .file true),
       (2, .dir [(dotP, 2), (ddotP, 2)] true 2 '/')]⟩

/-- Witness for C9: merging with the compatible branch 2 followed by the
file 1 raises SimMergeError and leaves the heap untouched. -/
theorem merge_type_error_preserves_files_witness :
    hFind heapC9 0 = some (.dir [(dotP, 0), (ddotP, 0)] true 0 '/') ∧
    (∃ bw, hFind heapC9 1 = some (.file bw)) ∧
    SimDirectory.merge 1 heapC9 0 [2, 1] [5, 6] none = (.error .mergeTypeError, heapC9) := by
  refine ⟨rfl, ⟨true, rfl⟩, ?_⟩
  exact merge_type_error_preserves_files 0 heapC9 0 _ true 0 '/' [2] 1 [] [5, 6] none rfl
    (by
      intro o ho
      simp only [List.mem_singleton] at ho
      subst ho
      exact ⟨[(dotP, 2), (ddotP, 2)], true, 2, '/', rfl⟩)
    ⟨true, rfl⟩ rfl

/-- The names bound at module level in filesystem.py: the two imports, the
four imported symbols, the logger and the two classes the module defines.
The name `SimConcreteDirectory` referenced inside
`SimDirectoryConcrete.__init__` is not among them. -/
def moduleGlobals : List String :=
  ["os", "logging", "l", "SimStatePlugin", "SimFileConcrete", "SimMergeError",
   "SimFilesystemError", "SimDirectory", "SimDirectoryConcrete"]

/-- `SimDirectoryConcrete.__init__` (filesystem.py lines 196-199).  Its first
statement is `super(SimConcreteDirectory, self).__init__(...)`; evaluating
the argument resolves the global name `SimConcreteDirectory`, which is bound
nowhere in the module (the class is called `SimDirectoryConcrete`), so every
construction raises NameError before any attribute of the instance is set.
The remaining statements (the `SimDirectory` initialisation, the
`os.path.realpath` call and the `host_root` default of lines 197-199) are
unreachable, as is everything `_lookup` would later synthesize through this
constructor, so the model allocates nothing; the unreachable branch is
discharged by deciding the membership test. -/
def simDirectoryConcreteInit (h : Heap) (hostPath : PyStr) (writable : Bool)
    (pathsep : Char) (hostRoot : Option PyStr) (parent : Option OId) :
    (Except PyErr OId) × Heap :=
  if hn : ("SimConcreteDirectory" : String) ∈ moduleGlobals then absurd hn (by decide)
  else (.error .nameError, h)

/-- C8: no host-backed directory can exist, so none ever performs the claimed
hand-off of a ".." suffix to its virtual parent: every attempt to construct a
`SimDirectoryConcrete` — whatever the host path, writability, separator,
host root or parent — raises NameError at line 197, because the `super` call
names `SimConcreteDirectory`, a global that the module never binds. -/
theorem concrete_dir_init_name_error (h : Heap) (hostPath : PyStr) (writable : Bool)
    (pathsep : Char) (hostRoot : Option PyStr) (parent : Option OId) :
    simDirectoryConcreteInit h hostPath writable pathsep hostRoot parent =
      (.error .nameError, h) := rfl
